import Mathlib

/-
Verification of the chatspec data model (chatspec/types.py).

The file embeds, in Lean, the runtime semantics of the response-side
pydantic models (Subscriptable and its subclasses Completion,
CompletionChunk, Embedding, the logprob types) and the request-side
TypedDict schemas (Function, the three message content parts).

Conventions of the embedding:
- JSON-like runtime values are the inductive type `Value`; Python floats
  are `PyFloat` (finite rational, infinities, nan), since pydantic's
  default configuration (allow_inf_nan) accepts non-finite floats.
- A constructed pydantic model instance is `SModel`: its class-level
  field table (`model_fields`, each with its declared default, where
  `DefaultSpec.undefined` stands for PydanticUndefined on required
  fields), the set of explicitly supplied fields (`model_fields_set`),
  and the instance dictionary of current attribute values.
- Python attribute lookup (`getattr`) falls back to the attributes
  resolvable on the class — the four methods Subscriptable itself
  defines (`subscriptableAttrs`) plus everything inherited from
  pydantic BaseModel and object, a large version-dependent set carried
  as the model's `classAttrs` — and on such a name yields a bound
  method (`Attr.method`) rather than raising AttributeError.
- Fallible operations return `Except PyErr` (AttributeError from
  `getattr`, ValueError from pydantic `__setattr__` on unknown fields),
  and schema validation returns `Option` (none = pydantic
  ValidationError).
-/

namespace Chatspec

/-- Python float values; pydantic's default float validation accepts the
non-finite values as well (allow_inf_nan is true by default). -/
inductive PyFloat where
  | finite (q : Rat)
  | inf
  | ninf
  | nan
deriving DecidableEq, Repr

/-- JSON-like runtime values exchanged with the models. -/
inductive Value where
  | vnull
  | vbool (b : Bool)
  | vint (n : Int)
  | vfloat (f : PyFloat)
  | vstr (s : String)
  | vlist (xs : List Value)
  | vobj (kvs : List (String × Value))
deriving Repr

/-- The declared default of a pydantic field: `undefined` models
PydanticUndefined (a required field, no default), `value v` models an
explicit default (in chatspec always None, i.e. `Value.vnull`). -/
inductive DefaultSpec where
  | undefined
  | value (v : Value)
deriving Repr

/-- Result of Python attribute lookup: an instance field value, or a
bound method found on the class. -/
inductive Attr where
  | field (v : Value)
  | method (name : String)
deriving Repr

/-- The Python error classes relevant to the dual-access layer. -/
inductive PyErr where
  | attributeError
  | valueError
deriving DecidableEq, Repr

/-- First-match association-list lookup (Python dict lookup). -/
def alookup {β : Type} (l : List (String × β)) (k : String) : Option β :=
  match l with
  | [] => none
  | p :: rest => if p.1 = k then some p.2 else alookup rest k

/-- Replace the value stored under an existing key, keeping order. -/
def updateKV (l : List (String × Value)) (k : String) (v : Value) :
    List (String × Value) :=
  match l with
  | [] => []
  | p :: rest => if p.1 = k then (k, v) :: rest else p :: updateKV rest k v

/-- A constructed instance of a Subscriptable (pydantic) model:
`fields` is the class field table with declared defaults, `fieldsSet`
is model_fields_set (the keys explicitly supplied at construction or
assigned later), `values` is the instance dictionary, and `classAttrs`
is the set of attribute names that Python getattr resolves on the
class when the name is not in the instance dictionary: the four
methods the Subscriptable class itself defines plus everything
inherited from pydantic BaseModel and object (model_dump,
model_fields, model_copy, dict, json, copy, the dunders, ...). That
inherited set is large and version-dependent, so it is carried as data
of the model rather than hard-coded. -/
structure SModel where
  fields : List (String × DefaultSpec)
  fieldsSet : List String
  values : List (String × Value)
  classAttrs : List String

/-- The attribute names defined on the Subscriptable class itself
(visible to getattr as bound methods on every instance). -/
def subscriptableAttrs : List String :=
  ["__getitem__", "__setitem__", "__contains__", "get"]

/-- A representative sample of the public attribute names every
instance additionally inherits from pydantic BaseModel (the full
inherited set also holds further helpers and the object dunders and
varies with the pydantic version). -/
def pydanticBaseModelAttrs : List String :=
  ["model_dump", "model_dump_json", "model_fields", "model_copy",
   "model_validate", "model_construct", "model_json_schema", "dict",
   "json", "copy"]

/-- The class-attribute names used for the concrete sample instances:
the Subscriptable methods together with the sampled BaseModel
inheritance. -/
def stdClassAttrs : List String :=
  subscriptableAttrs ++ pydanticBaseModelAttrs

/-- The declared field names of the model. -/
def SModel.fieldNames (m : SModel) : List String :=
  m.fields.map Prod.fst

/-- Subscriptable.__getitem__: `return getattr(self, key)`. Python
getattr reads the instance dictionary first and falls back to the
attributes resolvable on the class (yielding a bound method rather
than a field value); only a name found in neither place raises
AttributeError. -/
def SModel.getitem (m : SModel) (k : String) : Except PyErr Attr :=
  match alookup m.values k with
  | some v => .ok (.field v)
  | none =>
      if k ∈ m.classAttrs then .ok (.method k)
      else .error .attributeError

/-- Subscriptable.__setitem__: `setattr(self, key, value)`. Pydantic's
BaseModel.__setattr__ (validate_assignment is off) stores the value
unvalidated for a declared field and records the name in
model_fields_set; for any other name it raises ValueError. -/
def SModel.setitem (m : SModel) (k : String) (v : Value) :
    Except PyErr SModel :=
  if k ∈ m.fieldNames then
    .ok { m with
          values := updateKV m.values k v,
          fieldsSet :=
            if k ∈ m.fieldsSet then m.fieldsSet else k :: m.fieldsSet }
  else .error .valueError

/-- Subscriptable.__contains__: true when the key is in
model_fields_set, else, for a declared field, true exactly when the
declared default `is not None` (note PydanticUndefined is not None, so
a required field would also report true here), else false. -/
def SModel.contains (m : SModel) (k : String) : Bool :=
  if k ∈ m.fieldsSet then true
  else
    match alookup m.fields k with
    | some .undefined => true
    | some (.value .vnull) => false
    | some (.value _) => true
    | none => false

/-- Subscriptable.get: `self[key] if key in self else default`. -/
def SModel.get (m : SModel) (k : String) (default : Value) :
    Except PyErr Attr :=
  if m.contains k then m.getitem k else .ok (.field default)

/-- The invariants pydantic construction guarantees for every validated
instance: no duplicate declared fields, the instance dictionary holds
exactly the declared fields, model_fields_set only holds declared
fields, and every declared field that was not explicitly supplied has a
declared default which is the stored value. -/
def SModel.wf (m : SModel) : Prop :=
  m.fieldNames.Nodup ∧
  m.values.map Prod.fst = m.fieldNames ∧
  (∀ k ∈ m.fieldsSet, k ∈ m.fieldNames) ∧
  (∀ p ∈ m.fields, p.1 ∉ m.fieldsSet →
    ∃ v, p.2 = DefaultSpec.value v ∧ alookup m.values p.1 = some v)

/-- A sample constructed instance mirroring
`ChoiceLogprobs(content=None)`: both fields are Optional with default
None; only `content` was explicitly supplied (as null). -/
def clInst : SModel :=
  { fields := [("content", .value .vnull), ("refusal", .value .vnull)],
    fieldsSet := ["content"],
    values := [("content", .vnull), ("refusal", .vnull)],
    classAttrs := stdClassAttrs }

/-- A sample constructed instance of a Subscriptable model with one
field carrying a non-null declared default that was not supplied at
construction, and one required field that was supplied. -/
def nnInst : SModel :=
  { fields := [("id", .undefined), ("status", .value (.vstr "ok"))],
    fieldsSet := ["id"],
    values := [("id", .vint 1), ("status", .vstr "ok")],
    classAttrs := stdClassAttrs }

/-- A sample constructed instance mirroring
`Embedding(embedding=[], index=0, object="embedding")`: all three
fields are required and were supplied. -/
def embInst : SModel :=
  { fields :=
      [("embedding", .undefined), ("index", .undefined),
       ("object", .undefined)],
    fieldsSet := ["embedding", "index", "object"],
    values :=
      [("embedding", .vlist []), ("index", .vint 0),
       ("object", .vstr "embedding")],
    classAttrs := stdClassAttrs }

/-
Schema validation. Each chatspec type is embedded as a validator from
raw values to a parsed representation (`parseX : Value → Option XM`,
none = ValidationError), written from the declared field annotations of
the source, together with the serializer `dumpX : XM → Value` modelling
pydantic model_dump (every declared field is emitted, in declaration
order; submodels are serialized recursively; an unset Optional field is
emitted as null). Values are required to already carry the declared
shape (pydantic lax coercions such as numeric strings are outside the
model); unknown keys are ignored on input, as pydantic does.
-/

def asStr : Value → Option String
  | .vstr s => some s
  | _ => none

def asInt : Value → Option Int
  | .vint n => some n
  | _ => none

def asFloat : Value → Option PyFloat
  | .vfloat f => some f
  | _ => none

def asBool : Value → Option Bool
  | .vbool b => some b
  | _ => none

def asList : Value → Option (List Value)
  | .vlist xs => some xs
  | _ => none

def asObj : Value → Option (List (String × Value))
  | .vobj kvs => some kvs
  | _ => none

/-- Sequencing of fallible validation steps (Option bind, kept as a
named function so that statements about validators stay readable). -/
def obind {α β : Type} (o : Option α) (f : α → Option β) : Option β :=
  match o with
  | none => none
  | some a => f a

/-- Element-wise validation of a list, failing when any element
fails. -/
def omapM {α : Type} (p : Value → Option α) : List Value → Option (List α)
  | [] => some []
  | x :: xs =>
      obind (p x) fun a =>
      obind (omapM p xs) fun rest =>
      some (a :: rest)

/-- The raw value pydantic validates for an Optional field: an absent
key falls back to the default None, i.e. null. -/
def optF (kvs : List (String × Value)) (k : String) : Value :=
  (alookup kvs k).getD .vnull

/-- Validation of `Optional[t]`: null validates to None, anything else
must validate as `t`. -/
def parseOpt {α : Type} (p : Value → Option α) : Value → Option (Option α)
  | .vnull => some none
  | v => (p v).map some

/-- Serialization of an Optional field value. -/
def dumpOpt {α : Type} (d : α → Value) : Option α → Value
  | none => .vnull
  | some a => d a

/-- Normalization combinator matching `dumpOpt` after `parseOpt`. -/
def normOpt (n : Value → Value) : Value → Value
  | .vnull => .vnull
  | v => n v

/-- Normalization combinator for list-typed fields: normalize each
element, leave non-lists unchanged. -/
def normList (n : Value → Value) : Value → Value
  | .vlist xs => .vlist (xs.map n)
  | v => v

/-- Is the value a key/value object. -/
def Value.isObj : Value → Bool
  | .vobj _ => true
  | _ => false

/-
Request-side TypedDict schemas: Function and the three message content
parts. A TypedDict key without NotRequired is required; annotated
payloads Dict[str, Any] accept any object without deeper validation
(the nested ImageURL/InputAudio TypedDicts are only assigned, not
annotated, so they impose nothing).
-/

/-- The validated shape of the Function TypedDict: name and
description strings, parameters a JSON object kept as-is, optional
strict flag. -/
structure FunctionTD where
  name : String
  description : String
  parameters : List (String × Value)
  strict : Option Bool

/-- Validator of the Function TypedDict (name: str, description: str,
parameters: Dict[str, Any], strict: NotRequired[bool]). -/
def parseFunctionTD (v : Value) : Option FunctionTD :=
  match v with
  | .vobj kvs =>
      match alookup kvs "name", alookup kvs "description",
            alookup kvs "parameters" with
      | some (.vstr n), some (.vstr d), some (.vobj ps) =>
          match alookup kvs "strict" with
          | none => some ⟨n, d, ps, none⟩
          | some (.vbool b) => some ⟨n, d, ps, some b⟩
          | some _ => none
      | _, _, _ => none
  | _ => none

/-- A validated message content part: the three variants of the
MessageContentPart union, keeping the payload object of the image and
audio variants as-is (their annotation is Dict[str, Any]). -/
inductive ContentPartM where
  | image (iu : List (String × Value))
  | audio (ia : List (String × Value))
  | text (s : String)
deriving Repr

/-- MessageContentImagePart: type must be the literal "image_url" and
the required image_url key must hold an object. -/
def validateImagePart (kvs : List (String × Value)) : Option ContentPartM :=
  match alookup kvs "type" with
  | some (.vstr t) =>
      if t = "image_url" then
        match alookup kvs "image_url" with
        | some (.vobj iu) => some (.image iu)
        | _ => none
      else none
  | _ => none

/-- MessageContentAudioPart: type must be the literal "input_audio" and
the required input_audio key must hold an object. -/
def validateAudioPart (kvs : List (String × Value)) : Option ContentPartM :=
  match alookup kvs "type" with
  | some (.vstr t) =>
      if t = "input_audio" then
        match alookup kvs "input_audio" with
        | some (.vobj ia) => some (.audio ia)
        | _ => none
      else none
  | _ => none

/-- MessageContentTextPart: type must be the literal "text" and the
required text key must hold a string. -/
def validateTextPart (kvs : List (String × Value)) : Option ContentPartM :=
  match alookup kvs "type" with
  | some (.vstr t) =>
      if t = "text" then
        match alookup kvs "text" with
        | some (.vstr s) => some (.text s)
        | _ => none
      else none
  | _ => none

/-- The MessageContentPart union, members tried in declaration order
(image, audio, text); a part validates when some member accepts it. -/
def parseContentPart (v : Value) : Option ContentPartM :=
  match v with
  | .vobj kvs =>
      match validateImagePart kvs with
      | some p => some p
      | none =>
          match validateAudioPart kvs with
          | some p => some p
          | none => validateTextPart kvs
  | _ => none

/-- Serialization of a validated content part (declared keys in
declaration order). -/
def dumpPart : ContentPartM → Value
  | .image iu => .vobj [("image_url", .vobj iu), ("type", .vstr "image_url")]
  | .audio ia => .vobj [("input_audio", .vobj ia), ("type", .vstr "input_audio")]
  | .text s => .vobj [("text", .vstr s), ("type", .vstr "text")]

/-- What serialization does to a raw content part that validated: keep
the declared keys (with their original values) in declaration order. -/
def normPart (v : Value) : Value :=
  match v with
  | .vobj kvs =>
      match alookup kvs "type" with
      | some (.vstr "image_url") =>
          .vobj [("image_url", optF kvs "image_url"),
                 ("type", .vstr "image_url")]
      | some (.vstr "input_audio") =>
          .vobj [("input_audio", optF kvs "input_audio"),
                 ("type", .vstr "input_audio")]
      | some (.vstr "text") =>
          .vobj [("text", optF kvs "text"), ("type", .vstr "text")]
      | _ => v
  | _ => v

/-- MessageContent: a plain string or a list of content parts (the
union is tried string first). -/
inductive MContentM where
  | str (s : String)
  | parts (ps : List ContentPartM)
deriving Repr

def parseMContent (v : Value) : Option MContentM :=
  match v with
  | .vstr s => some (.str s)
  | .vlist xs => (omapM parseContentPart xs).map .parts
  | _ => none

def dumpMContent : MContentM → Value
  | .str s => .vstr s
  | .parts ps => .vlist (ps.map dumpPart)

/-
Response-side pydantic models.
-/

/-- Validation of `Optional[List[int]]` (the bytes fields). -/
def parseIntList (v : Value) : Option (List Int) :=
  obind (asList v) fun xs =>
  omapM asInt xs

structure TopLogprobM where
  token : String
  bytes : Option (List Int)
  logprob : PyFloat
deriving Repr

def parseTopLogprob (v : Value) : Option TopLogprobM :=
  obind (asObj v) fun kvs =>
  obind (alookup kvs "token") fun tv =>
  obind (asStr tv) fun token =>
  obind (parseOpt parseIntList (optF kvs "bytes")) fun bytes =>
  obind (alookup kvs "logprob") fun lv =>
  obind (asFloat lv) fun logprob =>
  some ⟨token, bytes, logprob⟩

def dumpIntList (ns : List Int) : Value := .vlist (ns.map .vint)

def dumpTopLogprob (m : TopLogprobM) : Value :=
  .vobj [("token", .vstr m.token),
         ("bytes", dumpOpt dumpIntList m.bytes),
         ("logprob", .vfloat m.logprob)]

def normTopLogprob (v : Value) : Value :=
  match v with
  | .vobj kvs =>
      .vobj [("token", optF kvs "token"),
             ("bytes", optF kvs "bytes"),
             ("logprob", optF kvs "logprob")]
  | v => v

structure TokenLogprobM where
  token : String
  bytes : Option (List Int)
  logprob : PyFloat
  top_logprobs : List TopLogprobM
deriving Repr

def parseTokenLogprob (v : Value) : Option TokenLogprobM :=
  obind (asObj v) fun kvs =>
  obind (alookup kvs "token") fun tv =>
  obind (asStr tv) fun token =>
  obind (parseOpt parseIntList (optF kvs "bytes")) fun bytes =>
  obind (alookup kvs "logprob") fun lv =>
  obind (asFloat lv) fun logprob =>
  obind (alookup kvs "top_logprobs") fun tlv =>
  obind (asList tlv) fun xs =>
  obind (omapM parseTopLogprob xs) fun tops =>
  some ⟨token, bytes, logprob, tops⟩

def dumpTokenLogprob (m : TokenLogprobM) : Value :=
  .vobj [("token", .vstr m.token),
         ("bytes", dumpOpt dumpIntList m.bytes),
         ("logprob", .vfloat m.logprob),
         ("top_logprobs", .vlist (m.top_logprobs.map dumpTopLogprob))]

def normTokenLogprob (v : Value) : Value :=
  match v with
  | .vobj kvs =>
      .vobj [("token", optF kvs "token"),
             ("bytes", optF kvs "bytes"),
             ("logprob", optF kvs "logprob"),
             ("top_logprobs", normList normTopLogprob (optF kvs "top_logprobs"))]
  | v => v

structure ChoiceLogprobsM where
  content : Option (List TokenLogprobM)
  refusal : Option (List TokenLogprobM)
deriving Repr

/-- Validation of `List[TokenLogprob]`. -/
def parseTokenLogprobList (v : Value) : Option (List TokenLogprobM) :=
  obind (asList v) fun xs =>
  omapM parseTokenLogprob xs

def parseChoiceLogprobs (v : Value) : Option ChoiceLogprobsM :=
  obind (asObj v) fun kvs =>
  obind (parseOpt parseTokenLogprobList (optF kvs "content")) fun content =>
  obind (parseOpt parseTokenLogprobList (optF kvs "refusal")) fun refusal =>
  some ⟨content, refusal⟩

def dumpChoiceLogprobs (m : ChoiceLogprobsM) : Value :=
  .vobj [("content",
          dumpOpt (fun l => .vlist (l.map dumpTokenLogprob)) m.content),
         ("refusal",
          dumpOpt (fun l => .vlist (l.map dumpTokenLogprob)) m.refusal)]

def normChoiceLogprobs (v : Value) : Value :=
  match v with
  | .vobj kvs =>
      .vobj [("content", normOpt (normList normTokenLogprob) (optF kvs "content")),
             ("refusal", normOpt (normList normTokenLogprob) (optF kvs "refusal"))]
  | v => v

structure CompletionFunctionM where
  name : String
  arguments : String
deriving Repr, DecidableEq

def parseCompletionFunction (v : Value) : Option CompletionFunctionM :=
  obind (asObj v) fun kvs =>
  obind (alookup kvs "name") fun nv =>
  obind (asStr nv) fun name =>
  obind (alookup kvs "arguments") fun av =>
  obind (asStr av) fun arguments =>
  some ⟨name, arguments⟩

def dumpCompletionFunction (m : CompletionFunctionM) : Value :=
  .vobj [("name", .vstr m.name), ("arguments", .vstr m.arguments)]

def normCompletionFunction (v : Value) : Value :=
  match v with
  | .vobj kvs =>
      .vobj [("name", optF kvs "name"), ("arguments", optF kvs "arguments")]
  | v => v

structure CompletionToolCallM where
  id : String
  function : CompletionFunctionM
deriving Repr, DecidableEq

def parseCompletionToolCall (v : Value) : Option CompletionToolCallM :=
  obind (asObj v) fun kvs =>
  obind (alookup kvs "id") fun iv =>
  obind (asStr iv) fun id =>
  obind (alookup kvs "type") fun tv =>
  obind (asStr tv) fun ts =>
  if ts = "function" then
    obind (alookup kvs "function") fun fv =>
    obind (parseCompletionFunction fv) fun f =>
    some ⟨id, f⟩
  else none

def dumpCompletionToolCall (m : CompletionToolCallM) : Value :=
  .vobj [("id", .vstr m.id), ("type", .vstr "function"),
         ("function", dumpCompletionFunction m.function)]

def normCompletionToolCall (v : Value) : Value :=
  match v with
  | .vobj kvs =>
      .vobj [("id", optF kvs "id"), ("type", optF kvs "type"),
             ("function", normCompletionFunction (optF kvs "function"))]
  | v => v

/-- Validation of `List[CompletionToolCall]`. -/
def parseToolCallList (v : Value) : Option (List CompletionToolCallM) :=
  obind (asList v) fun xs =>
  omapM parseCompletionToolCall xs

structure CompletionMessageM where
  content : MContentM
  name : Option String
  function_call : Option CompletionFunctionM
  tool_calls : Option (List CompletionToolCallM)
  tool_call_id : Option String
deriving Repr

def parseCompletionMessage (v : Value) : Option CompletionMessageM :=
  obind (asObj v) fun kvs =>
  obind (alookup kvs "role") fun rv =>
  obind (asStr rv) fun rs =>
  if rs = "assistant" then
    obind (alookup kvs "content") fun cv =>
    obind (parseMContent cv) fun content =>
    obind (parseOpt asStr (optF kvs "name")) fun name =>
    obind (parseOpt parseCompletionFunction (optF kvs "function_call")) fun fc =>
    obind (parseOpt parseToolCallList (optF kvs "tool_calls")) fun tcs =>
    obind (parseOpt asStr (optF kvs "tool_call_id")) fun tcid =>
    some ⟨content, name, fc, tcs, tcid⟩
  else none

def dumpCompletionMessage (m : CompletionMessageM) : Value :=
  .vobj [("role", .vstr "assistant"),
         ("content", dumpMContent m.content),
         ("name", dumpOpt Value.vstr m.name),
         ("function_call", dumpOpt dumpCompletionFunction m.function_call),
         ("tool_calls",
          dumpOpt (fun l => .vlist (l.map dumpCompletionToolCall)) m.tool_calls),
         ("tool_call_id", dumpOpt Value.vstr m.tool_call_id)]

def normCompletionMessage (v : Value) : Value :=
  match v with
  | .vobj kvs =>
      .vobj [("role", optF kvs "role"),
             ("content", normList normPart (optF kvs "content")),
             ("name", optF kvs "name"),
             ("function_call", normOpt normCompletionFunction (optF kvs "function_call")),
             ("tool_calls", normOpt (normList normCompletionToolCall) (optF kvs "tool_calls")),
             ("tool_call_id", optF kvs "tool_call_id")]
  | v => v

/-- The closed finish_reason enumeration
`Literal["stop", "length", "tool_calls"]`. -/
inductive FinishReasonM where
  | stop
  | length
  | toolCalls
deriving Repr, DecidableEq

def parseFinishReason (v : Value) : Option FinishReasonM :=
  match v with
  | .vstr s =>
      if s = "stop" then some .stop
      else if s = "length" then some .length
      else if s = "tool_calls" then some .toolCalls
      else none
  | _ => none

def dumpFinishReason : FinishReasonM → Value
  | .stop => .vstr "stop"
  | .length => .vstr "length"
  | .toolCalls => .vstr "tool_calls"

/-- Validation of the bare `Optional[BaseModel]` usage field: a null
stays None; an object validates against the field-less BaseModel,
which keeps nothing of it. -/
def parseBaseModel (v : Value) : Option Unit :=
  match v with
  | .vobj _ => some ()
  | _ => none

/-- Serialization of the usage field: an unset/None usage dumps as
null, a validated (field-less) BaseModel dumps as the empty object. -/
def dumpUsage : Option Unit → Value
  | none => .vnull
  | some _ => .vobj []

structure ChoiceM where
  message : CompletionMessageM
  finish_reason : FinishReasonM
  index : Int
  logprobs : Option ChoiceLogprobsM
deriving Repr

def parseChoice (v : Value) : Option ChoiceM :=
  obind (asObj v) fun kvs =>
  obind (alookup kvs "message") fun mv =>
  obind (parseCompletionMessage mv) fun message =>
  obind (alookup kvs "finish_reason") fun fv =>
  obind (parseFinishReason fv) fun fr =>
  obind (alookup kvs "index") fun iv =>
  obind (asInt iv) fun index =>
  obind (parseOpt parseChoiceLogprobs (optF kvs "logprobs")) fun logprobs =>
  some ⟨message, fr, index, logprobs⟩

def dumpChoice (m : ChoiceM) : Value :=
  .vobj [("message", dumpCompletionMessage m.message),
         ("finish_reason", dumpFinishReason m.finish_reason),
         ("index", .vint m.index),
         ("logprobs", dumpOpt dumpChoiceLogprobs m.logprobs)]

def normChoice (v : Value) : Value :=
  match v with
  | .vobj kvs =>
      .vobj [("message", normCompletionMessage (optF kvs "message")),
             ("finish_reason", optF kvs "finish_reason"),
             ("index", optF kvs "index"),
             ("logprobs", normOpt normChoiceLogprobs (optF kvs "logprobs"))]
  | v => v

/-- Validation of the `Optional[Literal["scale", "default"]]`
service_tier values. -/
def parseServiceTier (v : Value) : Option String :=
  obind (asStr v) fun s =>
  if s = "scale" ∨ s = "default" then some s else none

structure CompletionM where
  id : String
  choices : List ChoiceM
  created : Int
  model : String
  object : String
  service_tier : Option String
  system_fingerprint : Option String
  usage : Option Unit
deriving Repr

def parseCompletion (v : Value) : Option CompletionM :=
  obind (asObj v) fun kvs =>
  obind (alookup kvs "id") fun iv =>
  obind (asStr iv) fun id =>
  obind (alookup kvs "choices") fun cv =>
  obind (asList cv) fun cxs =>
  obind (omapM parseChoice cxs) fun choices =>
  obind (alookup kvs "created") fun crv =>
  obind (asInt crv) fun created =>
  obind (alookup kvs "model") fun mv =>
  obind (asStr mv) fun model =>
  obind (alookup kvs "object") fun ov =>
  obind (asStr ov) fun object =>
  obind (parseOpt parseServiceTier (optF kvs "service_tier")) fun st =>
  obind (parseOpt asStr (optF kvs "system_fingerprint")) fun sf =>
  obind (parseOpt parseBaseModel (optF kvs "usage")) fun usage =>
  some ⟨id, choices, created, model, object, st, sf, usage⟩

def dumpCompletion (m : CompletionM) : Value :=
  .vobj [("id", .vstr m.id),
         ("choices", .vlist (m.choices.map dumpChoice)),
         ("created", .vint m.created),
         ("model", .vstr m.model),
         ("object", .vstr m.object),
         ("service_tier", dumpOpt Value.vstr m.service_tier),
         ("system_fingerprint", dumpOpt Value.vstr m.system_fingerprint),
         ("usage", dumpUsage m.usage)]

def normCompletion (v : Value) : Value :=
  match v with
  | .vobj kvs =>
      .vobj [("id", optF kvs "id"),
             ("choices", normList normChoice (optF kvs "choices")),
             ("created", optF kvs "created"),
             ("model", optF kvs "model"),
             ("object", optF kvs "object"),
             ("service_tier", optF kvs "service_tier"),
             ("system_fingerprint", optF kvs "system_fingerprint"),
             ("usage", normOpt (fun _ => .vobj []) (optF kvs "usage"))]
  | v => v

structure ChunkChoiceM where
  delta : CompletionMessageM
  finish_reason : FinishReasonM
  index : Int
  logprobs : Option ChoiceLogprobsM
deriving Repr

def parseChunkChoice (v : Value) : Option ChunkChoiceM :=
  obind (asObj v) fun kvs =>
  obind (alookup kvs "delta") fun dv =>
  obind (parseCompletionMessage dv) fun delta =>
  obind (alookup kvs "finish_reason") fun fv =>
  obind (parseFinishReason fv) fun fr =>
  obind (alookup kvs "index") fun iv =>
  obind (asInt iv) fun index =>
  obind (parseOpt parseChoiceLogprobs (optF kvs "logprobs")) fun logprobs =>
  some ⟨delta, fr, index, logprobs⟩

def dumpChunkChoice (m : ChunkChoiceM) : Value :=
  .vobj [("delta", dumpCompletionMessage m.delta),
         ("finish_reason", dumpFinishReason m.finish_reason),
         ("index", .vint m.index),
         ("logprobs", dumpOpt dumpChoiceLogprobs m.logprobs)]

def normChunkChoice (v : Value) : Value :=
  match v with
  | .vobj kvs =>
      .vobj [("delta", normCompletionMessage (optF kvs "delta")),
             ("finish_reason", optF kvs "finish_reason"),
             ("index", optF kvs "index"),
             ("logprobs", normOpt normChoiceLogprobs (optF kvs "logprobs"))]
  | v => v

structure CompletionChunkM where
  id : String
  choices : List ChunkChoiceM
  created : Int
  model : String
  object : String
  service_tier : Option String
  system_fingerprint : Option String
  usage : Option Unit
deriving Repr

def parseCompletionChunk (v : Value) : Option CompletionChunkM :=
  obind (asObj v) fun kvs =>
  obind (alookup kvs "id") fun iv =>
  obind (asStr iv) fun id =>
  obind (alookup kvs "choices") fun cv =>
  obind (asList cv) fun cxs =>
  obind (omapM parseChunkChoice cxs) fun choices =>
  obind (alookup kvs "created") fun crv =>
  obind (asInt crv) fun created =>
  obind (alookup kvs "model") fun mv =>
  obind (asStr mv) fun model =>
  obind (alookup kvs "object") fun ov =>
  obind (asStr ov) fun object =>
  obind (parseOpt parseServiceTier (optF kvs "service_tier")) fun st =>
  obind (parseOpt asStr (optF kvs "system_fingerprint")) fun sf =>
  obind (parseOpt parseBaseModel (optF kvs "usage")) fun usage =>
  some ⟨id, choices, created, model, object, st, sf, usage⟩

def dumpCompletionChunk (m : CompletionChunkM) : Value :=
  .vobj [("id", .vstr m.id),
         ("choices", .vlist (m.choices.map dumpChunkChoice)),
         ("created", .vint m.created),
         ("model", .vstr m.model),
         ("object", .vstr m.object),
         ("service_tier", dumpOpt Value.vstr m.service_tier),
         ("system_fingerprint", dumpOpt Value.vstr m.system_fingerprint),
         ("usage", dumpUsage m.usage)]

def normCompletionChunk (v : Value) : Value :=
  match v with
  | .vobj kvs =>
      .vobj [("id", optF kvs "id"),
             ("choices", normList normChunkChoice (optF kvs "choices")),
             ("created", optF kvs "created"),
             ("model", optF kvs "model"),
             ("object", optF kvs "object"),
             ("service_tier", optF kvs "service_tier"),
             ("system_fingerprint", optF kvs "system_fingerprint"),
             ("usage", normOpt (fun _ => .vobj []) (optF kvs "usage"))]
  | v => v

structure EmbeddingM where
  embedding : List PyFloat
  index : Int
deriving Repr, DecidableEq

def parseEmbedding (v : Value) : Option EmbeddingM :=
  obind (asObj v) fun kvs =>
  obind (alookup kvs "embedding") fun ev =>
  obind (asList ev) fun xs =>
  obind (omapM asFloat xs) fun fs =>
  obind (alookup kvs "index") fun iv =>
  obind (asInt iv) fun index =>
  obind (alookup kvs "object") fun ov =>
  obind (asStr ov) fun os =>
  if os = "embedding" then some ⟨fs, index⟩ else none

def dumpEmbedding (m : EmbeddingM) : Value :=
  .vobj [("embedding", .vlist (m.embedding.map .vfloat)),
         ("index", .vint m.index),
         ("object", .vstr "embedding")]

def normEmbedding (v : Value) : Value :=
  match v with
  | .vobj kvs =>
      .vobj [("embedding", optF kvs "embedding"),
             ("index", optF kvs "index"),
             ("object", optF kvs "object")]
  | v => v

/-- Key lookup inside an object-shaped value. -/
def objLookup : Value → String → Option Value
  | .vobj kvs, k => alookup kvs k
  | _, _ => none

/-- A valid Completion payload whose choice supplies only the required
fields (no logprobs, no optional message fields). -/
def p0c : Value :=
  .vobj [("message",
          .vobj [("role", .vstr "assistant"), ("content", .vstr "hi")]),
         ("finish_reason", .vstr "stop"), ("index", .vint 0)]

def p0 : Value :=
  .vobj [("id", .vstr "c1"), ("choices", .vlist [p0c]),
         ("created", .vint 0), ("model", .vstr "m"),
         ("object", .vstr "chat.completion")]

/-- The instance obtained by validating `p0`. -/
def c0 : CompletionM :=
  ⟨"c1", [⟨⟨.str "hi", none, none, none, none⟩, .stop, 0, none⟩], 0, "m",
   "chat.completion", none, none, none⟩

/-- The serialized form of `p0`'s single choice. -/
def d0c : Value :=
  dumpChoice ⟨⟨.str "hi", none, none, none, none⟩, .stop, 0, none⟩

/-
Theorems.
-/

theorem alookup_isSome_of_mem {β : Type} {l : List (String × β)} {k : String}
    (h : k ∈ l.map Prod.fst) : ∃ v, alookup l k = some v := by
  induction l with
  | nil => simp at h
  | cons p rest ih =>
      by_cases hk : p.1 = k
      · exact ⟨p.2, by simp [alookup, hk]⟩
      · have : k ∈ rest.map Prod.fst := by
          rcases List.mem_map.mp h with ⟨q, hq, hq2⟩
          rcases List.mem_cons.mp hq with h1 | h2
          · exact absurd (h1 ▸ hq2) hk
          · exact List.mem_map.mpr ⟨q, h2, hq2⟩
        rcases ih this with ⟨v, hv⟩
        exact ⟨v, by simp [alookup, hk, hv]⟩

theorem mem_of_alookup_eq_some {β : Type} {l : List (String × β)}
    {k : String} {v : β} (h : alookup l k = some v) : (k, v) ∈ l := by
  induction l with
  | nil => simp [alookup] at h
  | cons p rest ih =>
      by_cases hk : p.1 = k
      · simp [alookup, hk] at h
        subst h
        exact List.mem_cons.mpr (Or.inl (by rw [← hk]))
      · simp [alookup, hk] at h
        exact List.mem_cons.mpr (Or.inr (ih h))

theorem mem_keys_of_alookup_eq_some {β : Type} {l : List (String × β)}
    {k : String} {v : β} (h : alookup l k = some v) : k ∈ l.map Prod.fst :=
  List.mem_map.mpr ⟨(k, v), mem_of_alookup_eq_some h, rfl⟩

theorem alookup_updateKV_self {l : List (String × Value)} {k : String}
    (v : Value) (h : k ∈ l.map Prod.fst) :
    alookup (updateKV l k v) k = some v := by
  induction l with
  | nil => simp at h
  | cons p rest ih =>
      by_cases hk : p.1 = k
      · simp [updateKV, hk, alookup]
      · have : k ∈ rest.map Prod.fst := by
          rcases List.mem_map.mp h with ⟨q, hq, hq2⟩
          rcases List.mem_cons.mp hq with h1 | h2
          · exact absurd (h1 ▸ hq2) hk
          · exact List.mem_map.mpr ⟨q, h2, hq2⟩
        simp [updateKV, hk, alookup, ih this]

/-- On a well-formed instance, a contained key always has a stored
instance value. -/
theorem contains_lookup (m : SModel) (k : String) (hw : m.wf)
    (hc : m.contains k = true) : ∃ v, alookup m.values k = some v := by
  obtain ⟨hnd, hkeys, hset, hdef⟩ := hw
  have hmem : k ∈ m.fieldNames := by
    unfold SModel.contains at hc
    by_cases hs : k ∈ m.fieldsSet
    · exact hset k hs
    · simp [hs] at hc
      rcases hl : alookup m.fields k with _ | d
      · rw [hl] at hc; simp at hc
      · exact List.mem_map.mpr ⟨(k, d), mem_of_alookup_eq_some hl, rfl⟩
  exact alookup_isSome_of_mem (hkeys ▸ hmem)

theorem clInst_wf : clInst.wf := by
  refine ⟨by decide, rfl, by decide, ?_⟩
  intro p hp hs
  simp only [clInst, List.mem_cons, List.not_mem_nil, or_false] at hp
  rcases hp with h | h
  · subst h; simp [clInst] at hs
  · subst h; exact ⟨.vnull, rfl, rfl⟩

theorem nnInst_wf : nnInst.wf := by
  refine ⟨by decide, rfl, by decide, ?_⟩
  intro p hp hs
  simp only [nnInst, List.mem_cons, List.not_mem_nil, or_false] at hp
  rcases hp with h | h
  · subst h; simp [nnInst] at hs
  · subst h; exact ⟨.vstr "ok", rfl, rfl⟩

theorem embInst_wf : embInst.wf := by
  refine ⟨by decide, rfl, by decide, ?_⟩
  intro p hp hs
  simp only [embInst, List.mem_cons, List.not_mem_nil, or_false] at hp
  rcases hp with h | h | h <;> (subst h; simp [embInst] at hs)

/-- Claim C1: on a validly constructed Subscriptable instance, a
declared field that was not explicitly supplied and whose declared
default is a non-null value tests as present under `in` and is
returned by `get`; a declared field that was not supplied and whose
declared default is None tests as absent and `get` yields the caller's
fallback. -/
theorem c1_presence_rule (m : SModel) (k : String) (v d fb : Value)
    (hw : m.wf) (hk : alookup m.fields k = some (.value v))
    (hset : k ∉ m.fieldsSet) :
    (v ≠ .vnull →
      m.contains k = true ∧ m.get k d = .ok (.field v)) ∧
    (v = .vnull →
      m.contains k = false ∧ m.get k fb = .ok (.field fb)) := by
  obtain ⟨hnd, hkeys, hsetsub, hdef⟩ := hw
  have hmemf : (k, DefaultSpec.value v) ∈ m.fields :=
    mem_of_alookup_eq_some hk
  obtain ⟨w, hw1, hw2⟩ := hdef (k, DefaultSpec.value v) hmemf hset
  have hvw : v = w := by cases hw1; rfl
  subst hvw
  constructor
  · intro hnn
    have hcont : m.contains k = true := by
      unfold SModel.contains
      cases v <;> simp_all [hk, hset]
    refine ⟨hcont, ?_⟩
    unfold SModel.get SModel.getitem
    simp [hcont, hw2]
  · intro hnull
    subst hnull
    have hcont : m.contains k = false := by
      unfold SModel.contains
      simp [hset, hk]
    refine ⟨hcont, ?_⟩
    unfold SModel.get
    simp [hcont]

/-- Claim C1 witness: the non-null-default field `status` of `nnInst`
(not supplied) is present and returned by get; the null-default field
`refusal` of `clInst` (not supplied) is absent and get falls back. -/
theorem c1_presence_rule_w :
    (nnInst.contains "status" = true ∧
      nnInst.get "status" .vnull = .ok (.field (.vstr "ok"))) ∧
    (clInst.contains "refusal" = false ∧
      clInst.get "refusal" (.vstr "fb") = .ok (.field (.vstr "fb"))) :=
  ⟨(c1_presence_rule nnInst "status" (.vstr "ok") .vnull .vnull
      nnInst_wf rfl (by decide)).1 (by simp),
   (c1_presence_rule clInst "refusal" .vnull .vnull (.vstr "fb")
      clInst_wf rfl (by decide)).2 rfl⟩

/-- Claim C4: on a validly constructed Subscriptable instance, `get`
never raises for any key and any fallback: it returns the stored field
value when the key is present under the presence rule, and the
fallback otherwise (in particular for keys never set with no default
and for entirely undeclared keys). -/
theorem c4_get_total (m : SModel) (k : String) (d : Value) (hw : m.wf) :
    (∃ r, m.get k d = .ok r) ∧
    (m.contains k = false → m.get k d = .ok (.field d)) ∧
    (m.contains k = true →
      ∃ v, alookup m.values k = some v ∧ m.get k d = .ok (.field v)) := by
  by_cases hc : m.contains k = true
  · obtain ⟨v, hv⟩ := contains_lookup m k hw hc
    have hget : m.get k d = .ok (.field v) := by
      unfold SModel.get SModel.getitem
      simp [hc, hv]
    exact ⟨⟨.field v, hget⟩, fun hf => by simp [hf] at hc,
      fun _ => ⟨v, hv, hget⟩⟩
  · have hcf : m.contains k = false := by
      cases h : m.contains k
      · rfl
      · exact absurd h hc
    have hget : m.get k d = .ok (.field d) := by
      unfold SModel.get
      simp [hcf]
    exact ⟨⟨.field d, hget⟩, fun _ => hget, fun ht => absurd ht hc⟩

/-- Claim C4 witness: on the Embedding-shaped instance, get returns
the fallback for the undeclared key "speed". -/
theorem c4_get_total_w :
    embInst.get "speed" (.vint 7) = .ok (.field (.vint 7)) :=
  (c4_get_total embInst "speed" (.vint 7) embInst_wf).2.1 rfl

/-- Claim C9: a key-based write to a declared field succeeds for every
value, including values violating the field's declared type or
enumeration, and an immediately subsequent key-based read returns
exactly that value: pydantic validation runs only at construction
(validate_assignment is off), never on key-write. -/
theorem c9_setitem_unvalidated (m : SModel) (k : String) (v : Value)
    (hw : m.wf) (hk : k ∈ m.fieldNames) :
    ∃ m2, m.setitem k v = .ok m2 ∧ m2.getitem k = .ok (.field v) := by
  obtain ⟨hnd, hkeys, hset, hdef⟩ := hw
  refine ⟨{ m with
            values := updateKV m.values k v,
            fieldsSet :=
              if k ∈ m.fieldsSet then m.fieldsSet else k :: m.fieldsSet },
          by unfold SModel.setitem; simp [hk], ?_⟩
  unfold SModel.getitem
  simp [alookup_updateKV_self v (hkeys ▸ hk)]

/-- Claim C9 witness: writing the type-violating string value "oops"
into the int-typed field `index` of the Embedding-shaped instance
succeeds and reads back unchanged. -/
theorem c9_setitem_unvalidated_w :
    ∃ m2, embInst.setitem "index" (.vstr "oops") = .ok m2 ∧
      m2.getitem "index" = .ok (.field (.vstr "oops")) :=
  c9_setitem_unvalidated embInst "index" (.vstr "oops") embInst_wf
    (by decide)

theorem obind_none {α β : Type} {f : α → Option β} :
    obind none f = none := rfl

theorem obind_some {α β : Type} {a : α} {f : α → Option β} :
    obind (some a) f = f a := rfl

theorem obind_eq_some {α β : Type} {o : Option α} {f : α → Option β}
    {b : β} : obind o f = some b ↔ ∃ a, o = some a ∧ f a = some b := by
  cases o <;> simp [obind]

theorem asObj_inv {v : Value} {kvs : List (String × Value)}
    (h : asObj v = some kvs) : v = .vobj kvs := by
  cases v <;> simp [asObj] at h
  simp [h]

theorem asStr_inv {v : Value} {s : String} (h : asStr v = some s) :
    v = .vstr s := by
  cases v <;> simp [asStr] at h
  simp [h]

theorem asInt_inv {v : Value} {n : Int} (h : asInt v = some n) :
    v = .vint n := by
  cases v <;> simp [asInt] at h
  simp [h]

theorem asFloat_inv {v : Value} {f : PyFloat} (h : asFloat v = some f) :
    v = .vfloat f := by
  cases v <;> simp [asFloat] at h
  simp [h]

theorem asList_inv {v : Value} {xs : List Value} (h : asList v = some xs) :
    v = .vlist xs := by
  cases v <;> simp [asList] at h
  simp [h]

theorem omapM_map {α : Type} {p : Value → Option α} {g : α → Value}
    (H : ∀ a, p (g a) = some a) :
    ∀ ys : List α, omapM p (ys.map g) = some ys := by
  intro ys
  induction ys with
  | nil => rfl
  | cons a rest ih => simp [omapM, H a, obind_some, ih]

theorem omapM_inv {α : Type} {p : Value → Option α} {g : α → Value}
    (H : ∀ x a, p x = some a → x = g a) :
    ∀ {xs : List Value} {ys : List α},
      omapM p xs = some ys → xs = ys.map g := by
  intro xs
  induction xs with
  | nil => intro ys h; simp [omapM] at h; simp [← h]
  | cons x rest ih =>
      intro ys h
      simp only [omapM, obind_eq_some] at h
      obtain ⟨a, ha, as, has, heq⟩ := h
      cases heq
      simp [H x a ha, ih has]

/-- Element-wise round trip through a list field: if every element that
validates serializes back to its normalization, so does the list. -/
theorem omapM_dump_norm {α : Type} {p : Value → Option α} {d : α → Value}
    {n : Value → Value} (H : ∀ x a, p x = some a → d a = n x) :
    ∀ {xs : List Value} {ys : List α},
      omapM p xs = some ys → ys.map d = xs.map n := by
  intro xs
  induction xs with
  | nil => intro ys h; simp [omapM] at h; simp [← h]
  | cons x rest ih =>
      intro ys h
      simp only [omapM, obind_eq_some] at h
      obtain ⟨a, ha, as, has, heq⟩ := h
      cases heq
      simp [H x a ha, ih has]

/-- Round trip through an Optional field. -/
theorem parseOpt_dump_norm {α : Type} {p : Value → Option α}
    {d : α → Value} {n : Value → Value}
    (H : ∀ x a, p x = some a → d a = n x) {v : Value} {o : Option α}
    (h : parseOpt p v = some o) : dumpOpt d o = normOpt n v := by
  cases v with
  | vnull => simp [parseOpt] at h; simp [← h, dumpOpt, normOpt]
  | vbool b =>
      simp [parseOpt, Option.map_eq_some'] at h
      obtain ⟨a, ha, heq⟩ := h
      simp [← heq, dumpOpt, normOpt, H _ a ha]
  | vint n2 =>
      simp [parseOpt, Option.map_eq_some'] at h
      obtain ⟨a, ha, heq⟩ := h
      simp [← heq, dumpOpt, normOpt, H _ a ha]
  | vfloat f =>
      simp [parseOpt, Option.map_eq_some'] at h
      obtain ⟨a, ha, heq⟩ := h
      simp [← heq, dumpOpt, normOpt, H _ a ha]
  | vstr s =>
      simp [parseOpt, Option.map_eq_some'] at h
      obtain ⟨a, ha, heq⟩ := h
      simp [← heq, dumpOpt, normOpt, H _ a ha]
  | vlist xs =>
      simp [parseOpt, Option.map_eq_some'] at h
      obtain ⟨a, ha, heq⟩ := h
      simp [← heq, dumpOpt, normOpt, H _ a ha]
  | vobj kvs =>
      simp [parseOpt, Option.map_eq_some'] at h
      obtain ⟨a, ha, heq⟩ := h
      simp [← heq, dumpOpt, normOpt, H _ a ha]

theorem optF_eq_of_alookup {kvs : List (String × Value)} {k : String}
    {w : Value} (h : alookup kvs k = some w) : optF kvs k = w := by
  simp [optF, h]

/-- Claim C2: each of the three ContentPart variants validates when
`type` carries its literal together with the matching required payload
sub-key (with no deeper validation of the image_url/input_audio
payload objects); a `type` outside the three literals fails against
every member of the union, as does a payload missing the sub-key its
declared type requires. -/
theorem c2_content_part_discriminant :
    (∀ s : String,
        parseContentPart (.vobj [("text", .vstr s), ("type", .vstr "text")]) =
          some (.text s)) ∧
    (∀ iu : List (String × Value),
        parseContentPart
            (.vobj [("image_url", .vobj iu), ("type", .vstr "image_url")]) =
          some (.image iu)) ∧
    (∀ ia : List (String × Value),
        parseContentPart
            (.vobj [("input_audio", .vobj ia), ("type", .vstr "input_audio")]) =
          some (.audio ia)) ∧
    (∀ (kvs : List (String × Value)) (t : String),
        alookup kvs "type" = some (.vstr t) →
        t ∉ (["text", "image_url", "input_audio"] : List String) →
        parseContentPart (.vobj kvs) = none) ∧
    (∀ kvs : List (String × Value),
        alookup kvs "type" = some (.vstr "text") →
        alookup kvs "text" = none →
        parseContentPart (.vobj kvs) = none) ∧
    (∀ kvs : List (String × Value),
        alookup kvs "type" = some (.vstr "image_url") →
        alookup kvs "image_url" = none →
        parseContentPart (.vobj kvs) = none) ∧
    (∀ kvs : List (String × Value),
        alookup kvs "type" = some (.vstr "input_audio") →
        alookup kvs "input_audio" = none →
        parseContentPart (.vobj kvs) = none) := by
  refine ⟨?_, ?_, ?_, ?_, ?_, ?_, ?_⟩
  · intro s
    simp [parseContentPart, validateImagePart, validateAudioPart,
      validateTextPart, alookup]
  · intro iu
    simp [parseContentPart, validateImagePart, alookup]
  · intro ia
    simp [parseContentPart, validateImagePart, validateAudioPart, alookup]
  · intro kvs t ht hnot
    have h1 : t ≠ "text" := fun h => hnot (by simp [h])
    have h2 : t ≠ "image_url" := fun h => hnot (by simp [h])
    have h3 : t ≠ "input_audio" := fun h => hnot (by simp [h])
    simp [parseContentPart, validateImagePart, validateAudioPart,
      validateTextPart, ht, h1, h2, h3]
  · intro kvs ht htext
    simp [parseContentPart, validateImagePart, validateAudioPart,
      validateTextPart, ht, htext]
  · intro kvs ht hiu
    simp [parseContentPart, validateImagePart, validateAudioPart,
      validateTextPart, ht, hiu]
  · intro kvs ht hia
    simp [parseContentPart, validateImagePart, validateAudioPart,
      validateTextPart, ht, hia]

/-- Claim C2 witness: a concrete text part validates; the discriminant
"tool_result" is rejected; a text part missing its text sub-key is
rejected. -/
theorem c2_content_part_discriminant_w :
    parseContentPart (.vobj [("text", .vstr "hi"), ("type", .vstr "text")]) =
      some (.text "hi") ∧
    parseContentPart (.vobj [("type", .vstr "tool_result")]) = none ∧
    parseContentPart (.vobj [("type", .vstr "text")]) = none :=
  ⟨c2_content_part_discriminant.1 "hi",
   c2_content_part_discriminant.2.2.2.1 [("type", .vstr "tool_result")]
     "tool_result" rfl (by decide),
   c2_content_part_discriminant.2.2.2.2.1 [("type", .vstr "text")] rfl rfl⟩

/-- Claim C7: the Function schema rejects a parameters value that is
not a key/value object (a scalar or an array), and accepts any
key/value object as parameters without deeper JSON-Schema
validation. -/
theorem c7_function_parameters_object :
    (∀ (n d : String) (ps : List (String × Value)),
        parseFunctionTD
            (.vobj [("name", .vstr n), ("description", .vstr d),
                    ("parameters", .vobj ps)]) =
          some ⟨n, d, ps, none⟩) ∧
    (∀ (n d : String) (bad : Value), bad.isObj = false →
        parseFunctionTD
            (.vobj [("name", .vstr n), ("description", .vstr d),
                    ("parameters", bad)]) = none) := by
  constructor
  · intro n d ps
    simp [parseFunctionTD, alookup]
  · intro n d bad hbad
    cases bad <;> simp_all [parseFunctionTD, alookup, Value.isObj]

/-- Claim C7 witness: the scalar 3 and an array are rejected as
parameters; an arbitrary object (not a valid JSON Schema document) is
accepted. -/
theorem c7_function_parameters_object_w :
    parseFunctionTD
        (.vobj [("name", .vstr "f"), ("description", .vstr "d"),
                ("parameters", .vint 3)]) = none ∧
    parseFunctionTD
        (.vobj [("name", .vstr "f"), ("description", .vstr "d"),
                ("parameters", .vlist [.vint 1])]) = none ∧
    parseFunctionTD
        (.vobj [("name", .vstr "f"), ("description", .vstr "d"),
                ("parameters", .vobj [("bogus", .vnull)])]) =
      some ⟨"f", "d", [("bogus", .vnull)], none⟩ :=
  ⟨c7_function_parameters_object.2 "f" "d" (.vint 3) rfl,
   c7_function_parameters_object.2 "f" "d" (.vlist [.vint 1]) rfl,
   c7_function_parameters_object.1 "f" "d" [("bogus", .vnull)]⟩

/-- Claim C6: finish_reason is the closed enumeration stop, length,
tool_calls on both Completion.Choice and CompletionChunk.Choice: any
other string (such as "content_filter") fails construction, and a
choice payload with finish_reason "stop" and otherwise valid fields
validates. -/
theorem c6_finish_reason_closed :
    (∀ (kvs : List (String × Value)) (s : String),
        alookup kvs "finish_reason" = some (.vstr s) →
        s ∉ (["stop", "length", "tool_calls"] : List String) →
        parseChoice (.vobj kvs) = none ∧
          parseChunkChoice (.vobj kvs) = none) ∧
    parseChoice
        (.vobj [("message",
                 .vobj [("role", .vstr "assistant"), ("content", .vstr "hi")]),
                ("finish_reason", .vstr "stop"), ("index", .vint 0)]) =
      some ⟨⟨.str "hi", none, none, none, none⟩, .stop, 0, none⟩ ∧
    parseChunkChoice
        (.vobj [("delta",
                 .vobj [("role", .vstr "assistant"), ("content", .vstr "hi")]),
                ("finish_reason", .vstr "stop"), ("index", .vint 0)]) =
      some ⟨⟨.str "hi", none, none, none, none⟩, .stop, 0, none⟩ := by
  refine ⟨?_, rfl, rfl⟩
  intro kvs s hs hnot
  have h1 : s ≠ "stop" := fun h => hnot (by simp [h])
  have h2 : s ≠ "length" := fun h => hnot (by simp [h])
  have h3 : s ≠ "tool_calls" := fun h => hnot (by simp [h])
  constructor
  · simp only [parseChoice, asObj, obind_some]
    rcases hm : alookup kvs "message" with _ | mv
    · rfl
    · rw [obind_some]
      rcases hpm : parseCompletionMessage mv with _ | msg
      · rfl
      · rw [obind_some, hs, obind_some]
        simp [parseFinishReason, h1, h2, h3, obind_none]
  · simp only [parseChunkChoice, asObj, obind_some]
    rcases hm : alookup kvs "delta" with _ | dv
    · rfl
    · rw [obind_some]
      rcases hpm : parseCompletionMessage dv with _ | msg
      · rfl
      · rw [obind_some, hs, obind_some]
        simp [parseFinishReason, h1, h2, h3, obind_none]

/-- Claim C6 witness: finish_reason "content_filter" is rejected on
both choice shapes. -/
theorem c6_finish_reason_closed_w :
    parseChoice (.vobj [("finish_reason", .vstr "content_filter")]) = none ∧
    parseChunkChoice (.vobj [("finish_reason", .vstr "content_filter")]) =
      none :=
  c6_finish_reason_closed.1 [("finish_reason", .vstr "content_filter")]
    "content_filter" rfl (by decide)

/-- Claim C8 counterexample: a payload with a negative index and a
non-finite (NaN) embedding element validates, where the claim requires
construction to fail; the source declares `index: int` with no bound
and `List[float]` with pydantic's default allow_inf_nan. -/
theorem c8_embedding_cex :
    parseEmbedding
        (.vobj [("embedding", .vlist [.vfloat .nan]),
                ("index", .vint (-1)),
                ("object", .vstr "embedding")]) =
      some ⟨[.nan], -1⟩ := rfl

/-- Claim C8 amended: constructing an Embedding succeeds exactly when
`embedding` is a sequence of floats (finiteness is NOT checked:
non-finite elements are accepted), `index` is an integer (sign is NOT
checked: negative values are accepted), and `object` is the literal
"embedding"; any other `object` value fails at construction. -/
theorem c8_embedding_amended :
    (∀ (fs : List PyFloat) (n : Int),
        parseEmbedding
            (.vobj [("embedding", .vlist (fs.map .vfloat)),
                    ("index", .vint n), ("object", .vstr "embedding")]) =
          some ⟨fs, n⟩) ∧
    (∀ (xs : List Value) (n : Int) (s : String), s ≠ "embedding" →
        parseEmbedding
            (.vobj [("embedding", .vlist xs), ("index", .vint n),
                    ("object", .vstr s)]) = none) ∧
    (∀ (v : Value) (m : EmbeddingM), parseEmbedding v = some m →
        ∃ kvs, v = .vobj kvs ∧
          alookup kvs "embedding" =
            some (.vlist (m.embedding.map .vfloat)) ∧
          alookup kvs "index" = some (.vint m.index) ∧
          alookup kvs "object" = some (.vstr "embedding")) := by
  refine ⟨?_, ?_, ?_⟩
  · intro fs n
    simp [parseEmbedding, asObj, alookup, asList, obind_some,
      @omapM_map PyFloat asFloat Value.vfloat (fun f => rfl) fs, asInt,
      asStr]
  · intro xs n s hs
    simp only [parseEmbedding, asObj, obind_some]
    rw [show alookup [("embedding", Value.vlist xs), ("index", Value.vint n),
          ("object", Value.vstr s)] "embedding" = some (.vlist xs) from rfl,
        obind_some]
    rw [show asList (Value.vlist xs) = some xs from rfl, obind_some]
    rcases hfs : omapM asFloat xs with _ | fs
    · rfl
    · rw [obind_some]
      rw [show alookup [("embedding", Value.vlist xs), ("index", Value.vint n),
            ("object", Value.vstr s)] "index" = some (.vint n) from rfl,
          obind_some]
      rw [show asInt (Value.vint n) = some n from rfl, obind_some]
      rw [show alookup [("embedding", Value.vlist xs), ("index", Value.vint n),
            ("object", Value.vstr s)] "object" = some (.vstr s) from
            by simp [alookup], obind_some]
      rw [show asStr (Value.vstr s) = some s from rfl, obind_some]
      simp [hs]
  · intro v m h
    simp only [parseEmbedding, obind_eq_some] at h
    obtain ⟨kvs, hkvs, ev, hev, xs, hxs, fs, hfs, iv, hiv, n, hn, ov, hov,
      os, hos, hif⟩ := h
    have hxs2 : xs = fs.map Value.vfloat :=
      omapM_inv (fun x a ha => asFloat_inv ha) hfs
    have hife : os = "embedding" ∧ m = ⟨fs, n⟩ := by
      by_cases hoe : os = "embedding"
      · simp [hoe] at hif
        exact ⟨hoe, hif.symm⟩
      · simp [hoe] at hif
    obtain ⟨hoe, hm⟩ := hife
    refine ⟨kvs, asObj_inv hkvs, ?_, ?_, ?_⟩
    · rw [hev, asList_inv hxs, hxs2, hm]
    · rw [hiv, asInt_inv hn, hm]
    · rw [hov, asStr_inv hos, hoe]

/-- Claim C8 amended witness: index -2 with an infinite element is
accepted; object "embeddings" is rejected. -/
theorem c8_embedding_amended_w :
    parseEmbedding
        (.vobj [("embedding", .vlist [.vfloat .inf]), ("index", .vint (-2)),
                ("object", .vstr "embedding")]) = some ⟨[.inf], -2⟩ ∧
    parseEmbedding
        (.vobj [("embedding", .vlist []), ("index", .vint 0),
                ("object", .vstr "embeddings")]) = none :=
  ⟨c8_embedding_amended.1 [.inf] (-2),
   c8_embedding_amended.2.1 [] 0 "embeddings" (by decide)⟩

/-- Claim C10: despite a chunk being a partial update, a
CompletionChunk.Choice requires delta and finish_reason: construction
fails when finish_reason is absent or null, when delta is absent, when
the delta lacks its required role or the role is not the literal
"assistant", and when the delta lacks its required content field. -/
theorem c10_chunk_choice_required :
    (∀ kvs : List (String × Value), alookup kvs "delta" = none →
        parseChunkChoice (.vobj kvs) = none) ∧
    (∀ kvs : List (String × Value), alookup kvs "finish_reason" = none →
        parseChunkChoice (.vobj kvs) = none) ∧
    (∀ kvs : List (String × Value),
        alookup kvs "finish_reason" = some .vnull →
        parseChunkChoice (.vobj kvs) = none) ∧
    (∀ (kvs dk : List (String × Value)),
        alookup kvs "delta" = some (.vobj dk) →
        alookup dk "role" = none →
        parseChunkChoice (.vobj kvs) = none) ∧
    (∀ (kvs dk : List (String × Value)) (s : String),
        alookup kvs "delta" = some (.vobj dk) →
        alookup dk "role" = some (.vstr s) → s ≠ "assistant" →
        parseChunkChoice (.vobj kvs) = none) ∧
    (∀ (kvs dk : List (String × Value)),
        alookup kvs "delta" = some (.vobj dk) →
        alookup dk "content" = none →
        parseChunkChoice (.vobj kvs) = none) := by
  refine ⟨?_, ?_, ?_, ?_, ?_, ?_⟩
  · intro kvs hd
    simp only [parseChunkChoice, asObj, obind_some]
    rw [hd]
    rfl
  · intro kvs hfr
    simp only [parseChunkChoice, asObj, obind_some]
    rcases hd : alookup kvs "delta" with _ | dv
    · rfl
    · rw [obind_some]
      rcases hpm : parseCompletionMessage dv with _ | msg
      · rfl
      · rw [obind_some, hfr]
        rfl
  · intro kvs hfr
    simp only [parseChunkChoice, asObj, obind_some]
    rcases hd : alookup kvs "delta" with _ | dv
    · rfl
    · rw [obind_some]
      rcases hpm : parseCompletionMessage dv with _ | msg
      · rfl
      · rw [obind_some, hfr, obind_some]
        rfl
  · intro kvs dk hd hrole
    simp only [parseChunkChoice, asObj, obind_some]
    rw [hd, obind_some]
    have hpm : parseCompletionMessage (.vobj dk) = none := by
      simp only [parseCompletionMessage, asObj, obind_some]
      rw [hrole]
      rfl
    rw [hpm]
    rfl
  · intro kvs dk s hd hrole hs
    simp only [parseChunkChoice, asObj, obind_some]
    rw [hd, obind_some]
    have hpm : parseCompletionMessage (.vobj dk) = none := by
      simp only [parseCompletionMessage, asObj, obind_some]
      rw [hrole, obind_some]
      rw [show asStr (Value.vstr s) = some s from rfl, obind_some]
      simp [hs]
    rw [hpm]
    rfl
  · intro kvs dk hd hcontent
    simp only [parseChunkChoice, asObj, obind_some]
    rw [hd, obind_some]
    have hpm : parseCompletionMessage (.vobj dk) = none := by
      simp only [parseCompletionMessage, asObj, obind_some]
      rcases hr : alookup dk "role" with _ | rv
      · rfl
      · rw [obind_some]
        rcases hsr : asStr rv with _ | rs
        · rfl
        · rw [obind_some]
          by_cases hra : rs = "assistant"
          · rw [if_pos hra, hcontent]
            rfl
          · rw [if_neg hra]
    rw [hpm]
    rfl

/-- Claim C10 witness: the empty chunk-choice payload, a payload with
a null finish_reason, and a delta carrying a non-assistant role are
all rejected. -/
theorem c10_chunk_choice_required_w :
    parseChunkChoice (.vobj []) = none ∧
    parseChunkChoice
        (.vobj [("delta",
                 .vobj [("role", .vstr "assistant"), ("content", .vstr "")]),
                ("finish_reason", .vnull), ("index", .vint 0)]) = none ∧
    parseChunkChoice
        (.vobj [("delta",
                 .vobj [("role", .vstr "user"), ("content", .vstr "hi")]),
                ("finish_reason", .vstr "stop"), ("index", .vint 0)]) =
      none :=
  ⟨c10_chunk_choice_required.1 [] rfl,
   c10_chunk_choice_required.2.2.1 _ rfl,
   c10_chunk_choice_required.2.2.2.2.1 _
     [("role", .vstr "user"), ("content", .vstr "hi")] "user" rfl rfl
     (by decide)⟩

theorem normOpt_id {v : Value} : normOpt (fun x => x) v = v := by
  cases v <;> rfl

/-- A validated Optional[List[int]] serializes back to its exact raw
value. -/
theorem parseIntList_roundtrip {x : Value} {ns : List Int}
    (h : parseIntList x = some ns) : dumpIntList ns = x := by
  simp only [parseIntList, obind_eq_some] at h
  obtain ⟨xs, hxs, hmap⟩ := h
  rw [asList_inv hxs, dumpIntList,
    omapM_inv (fun x a ha => asInt_inv ha) hmap]

theorem topLogprob_dump_norm {v : Value} {m : TopLogprobM}
    (h : parseTopLogprob v = some m) : dumpTopLogprob m = normTopLogprob v := by
  simp only [parseTopLogprob, obind_eq_some] at h
  obtain ⟨kvs, hkvs, tv, htv, token, htok, bytes, hbytes, lv, hlv, lp, hlp,
    heq⟩ := h
  cases heq
  rw [asObj_inv hkvs, normTopLogprob, dumpTopLogprob]
  rw [optF_eq_of_alookup htv, asStr_inv htok]
  rw [optF_eq_of_alookup hlv, asFloat_inv hlp]
  rw [show dumpOpt dumpIntList bytes = normOpt (fun x => x) (optF kvs "bytes")
        from parseOpt_dump_norm (fun x a ha => parseIntList_roundtrip ha)
          hbytes,
      normOpt_id]

theorem tokenLogprob_dump_norm {v : Value} {m : TokenLogprobM}
    (h : parseTokenLogprob v = some m) :
    dumpTokenLogprob m = normTokenLogprob v := by
  simp only [parseTokenLogprob, obind_eq_some] at h
  obtain ⟨kvs, hkvs, tv, htv, token, htok, bytes, hbytes, lv, hlv, lp, hlp,
    tlv, htlv, xs, hxs, tops, htops, heq⟩ := h
  cases heq
  rw [asObj_inv hkvs, normTokenLogprob, dumpTokenLogprob]
  rw [optF_eq_of_alookup htv, asStr_inv htok]
  rw [optF_eq_of_alookup hlv, asFloat_inv hlp]
  rw [optF_eq_of_alookup htlv, asList_inv hxs]
  rw [show dumpOpt dumpIntList bytes = normOpt (fun x => x) (optF kvs "bytes")
        from parseOpt_dump_norm (fun x a ha => parseIntList_roundtrip ha)
          hbytes,
      normOpt_id]
  rw [omapM_dump_norm (fun x a ha => topLogprob_dump_norm ha) htops,
    normList]

/-- A validated List[TokenLogprob] serializes to the element-wise
normalization of its raw value. -/
theorem tokenLogprobList_dump_norm {x : Value} {l : List TokenLogprobM}
    (h : parseTokenLogprobList x = some l) :
    Value.vlist (l.map dumpTokenLogprob) = normList normTokenLogprob x := by
  simp only [parseTokenLogprobList, obind_eq_some] at h
  obtain ⟨xs, hxs, hmap⟩ := h
  rw [asList_inv hxs, normList,
    omapM_dump_norm (fun x a ha => tokenLogprob_dump_norm ha) hmap]

theorem choiceLogprobs_dump_norm {v : Value} {m : ChoiceLogprobsM}
    (h : parseChoiceLogprobs v = some m) :
    dumpChoiceLogprobs m = normChoiceLogprobs v := by
  simp only [parseChoiceLogprobs, obind_eq_some] at h
  obtain ⟨kvs, hkvs, content, hcontent, refusal, hrefusal, heq⟩ := h
  cases heq
  rw [asObj_inv hkvs, normChoiceLogprobs, dumpChoiceLogprobs]
  rw [parseOpt_dump_norm (fun x a ha => tokenLogprobList_dump_norm ha)
      hcontent,
    parseOpt_dump_norm (fun x a ha => tokenLogprobList_dump_norm ha)
      hrefusal]

theorem completionFunction_dump_norm {v : Value} {m : CompletionFunctionM}
    (h : parseCompletionFunction v = some m) :
    dumpCompletionFunction m = normCompletionFunction v := by
  simp only [parseCompletionFunction, obind_eq_some] at h
  obtain ⟨kvs, hkvs, nv, hnv, name, hname, av, hav, args, hargs, heq⟩ := h
  cases heq
  rw [asObj_inv hkvs, normCompletionFunction, dumpCompletionFunction]
  rw [optF_eq_of_alookup hnv, asStr_inv hname]
  rw [optF_eq_of_alookup hav, asStr_inv hargs]

theorem completionToolCall_dump_norm {v : Value} {m : CompletionToolCallM}
    (h : parseCompletionToolCall v = some m) :
    dumpCompletionToolCall m = normCompletionToolCall v := by
  simp only [parseCompletionToolCall, obind_eq_some] at h
  obtain ⟨kvs, hkvs, iv, hiv, id, hid, tv, htv, ts, hts, hrest⟩ := h
  by_cases hfn : ts = "function"
  · rw [if_pos hfn] at hrest
    simp only [obind_eq_some] at hrest
    obtain ⟨fv, hfv, f, hf, heq⟩ := hrest
    cases heq
    rw [asObj_inv hkvs, normCompletionToolCall, dumpCompletionToolCall]
    rw [optF_eq_of_alookup hiv, asStr_inv hid]
    rw [optF_eq_of_alookup htv, asStr_inv hts, hfn]
    rw [optF_eq_of_alookup hfv, completionFunction_dump_norm hf]
  · rw [if_neg hfn] at hrest
    exact absurd hrest (by simp)

theorem validateImagePart_inv {kvs : List (String × Value)}
    {p : ContentPartM} (h : validateImagePart kvs = some p) :
    alookup kvs "type" = some (.vstr "image_url") ∧
    ∃ iu, alookup kvs "image_url" = some (.vobj iu) ∧ p = .image iu := by
  unfold validateImagePart at h
  rcases ht : alookup kvs "type" with _ | w <;> rw [ht] at h
  · simp at h
  · cases w <;> try simp at h
    rename_i t
    obtain ⟨hti, h2⟩ := h
    subst hti
    rcases hiu : alookup kvs "image_url" with _ | u <;> rw [hiu] at h2
    · simp at h2
    · cases u <;> simp at h2
      rename_i iu
      exact ⟨rfl, iu, rfl, h2.symm⟩

theorem validateAudioPart_inv {kvs : List (String × Value)}
    {p : ContentPartM} (h : validateAudioPart kvs = some p) :
    alookup kvs "type" = some (.vstr "input_audio") ∧
    ∃ ia, alookup kvs "input_audio" = some (.vobj ia) ∧ p = .audio ia := by
  unfold validateAudioPart at h
  rcases ht : alookup kvs "type" with _ | w <;> rw [ht] at h
  · simp at h
  · cases w <;> try simp at h
    rename_i t
    obtain ⟨hti, h2⟩ := h
    subst hti
    rcases hia : alookup kvs "input_audio" with _ | u <;> rw [hia] at h2
    · simp at h2
    · cases u <;> simp at h2
      rename_i ia
      exact ⟨rfl, ia, rfl, h2.symm⟩

theorem validateTextPart_inv {kvs : List (String × Value)}
    {p : ContentPartM} (h : validateTextPart kvs = some p) :
    alookup kvs "type" = some (.vstr "text") ∧
    ∃ s, alookup kvs "text" = some (.vstr s) ∧ p = .text s := by
  unfold validateTextPart at h
  rcases ht : alookup kvs "type" with _ | w <;> rw [ht] at h
  · simp at h
  · cases w <;> try simp at h
    rename_i t
    obtain ⟨hti, h2⟩ := h
    subst hti
    rcases hs : alookup kvs "text" with _ | u <;> rw [hs] at h2
    · simp at h2
    · cases u <;> simp at h2
      rename_i s
      exact ⟨rfl, s, rfl, h2.symm⟩

theorem contentPart_dump_norm {v : Value} {p : ContentPartM}
    (h : parseContentPart v = some p) : dumpPart p = normPart v := by
  cases v <;> try simp only [parseContentPart] at h
  case vnull | vbool | vint | vfloat | vstr | vlist => simp at h
  rename_i kvs
  rcases hi : validateImagePart kvs with _ | q <;> rw [hi] at h
  · rcases ha : validateAudioPart kvs with _ | q <;> rw [ha] at h
    · obtain ⟨ht, s, hs, hp⟩ := validateTextPart_inv h
      subst hp
      rw [normPart, ht]
      simp [dumpPart, optF_eq_of_alookup hs]
    · cases h
      obtain ⟨ht, ia, hia, hp⟩ := validateAudioPart_inv ha
      subst hp
      rw [normPart, ht]
      simp [dumpPart, optF_eq_of_alookup hia]
  · cases h
    obtain ⟨ht, iu, hiu, hp⟩ := validateImagePart_inv hi
    subst hp
    rw [normPart, ht]
    simp [dumpPart, optF_eq_of_alookup hiu]

theorem mcontent_dump_norm {v : Value} {c : MContentM}
    (h : parseMContent v = some c) :
    dumpMContent c = normList normPart v := by
  cases v <;> try simp [parseMContent] at h
  · rename_i s
    rw [← h]
    rfl
  · rename_i xs
    obtain ⟨ps, hps, hc⟩ := h
    rw [← hc, dumpMContent, normList,
      omapM_dump_norm (fun x a ha => contentPart_dump_norm ha) hps]

/-- A validated List[CompletionToolCall] serializes to the
element-wise normalization of its raw value. -/
theorem toolCallList_dump_norm {x : Value} {l : List CompletionToolCallM}
    (h : parseToolCallList x = some l) :
    Value.vlist (l.map dumpCompletionToolCall) =
      normList normCompletionToolCall x := by
  simp only [parseToolCallList, obind_eq_some] at h
  obtain ⟨xs, hxs, hmap⟩ := h
  rw [asList_inv hxs, normList,
    omapM_dump_norm (fun x a ha => completionToolCall_dump_norm ha) hmap]

theorem completionMessage_dump_norm {v : Value} {m : CompletionMessageM}
    (h : parseCompletionMessage v = some m) :
    dumpCompletionMessage m = normCompletionMessage v := by
  simp only [parseCompletionMessage, obind_eq_some] at h
  obtain ⟨kvs, hkvs, rv, hrv, rs, hrs, hrest⟩ := h
  by_cases hra : rs = "assistant"
  · rw [if_pos hra] at hrest
    simp only [obind_eq_some] at hrest
    obtain ⟨cv, hcv, content, hcontent, name, hname, fc, hfc, tcs, htcs,
      tcid, htcid, heq⟩ := hrest
    cases heq
    rw [asObj_inv hkvs, normCompletionMessage, dumpCompletionMessage]
    rw [optF_eq_of_alookup hrv, asStr_inv hrs, hra]
    rw [optF_eq_of_alookup hcv, mcontent_dump_norm hcontent]
    rw [show dumpOpt Value.vstr name = normOpt (fun x => x) (optF kvs "name")
          from parseOpt_dump_norm (fun x a ha => (asStr_inv ha).symm) hname,
        normOpt_id]
    rw [parseOpt_dump_norm (fun x a ha => completionFunction_dump_norm ha)
        hfc]
    rw [parseOpt_dump_norm (fun x a ha => toolCallList_dump_norm ha) htcs]
    rw [show dumpOpt Value.vstr tcid =
          normOpt (fun x => x) (optF kvs "tool_call_id")
          from parseOpt_dump_norm (fun x a ha => (asStr_inv ha).symm) htcid,
        normOpt_id]
  · rw [if_neg hra] at hrest
    exact absurd hrest (by simp)

theorem finishReason_roundtrip {x : Value} {fr : FinishReasonM}
    (h : parseFinishReason x = some fr) : dumpFinishReason fr = x := by
  cases x <;> try simp only [parseFinishReason] at h
  case vnull | vbool | vint | vfloat | vlist | vobj => simp at h
  rename_i s
  by_cases h1 : s = "stop"
  · rw [if_pos h1] at h
    cases h
    rw [dumpFinishReason, h1]
  · rw [if_neg h1] at h
    by_cases h2 : s = "length"
    · rw [if_pos h2] at h
      cases h
      rw [dumpFinishReason, h2]
    · rw [if_neg h2] at h
      by_cases h3 : s = "tool_calls"
      · rw [if_pos h3] at h
        cases h
        rw [dumpFinishReason, h3]
      · rw [if_neg h3] at h
        exact absurd h (by simp)

theorem serviceTier_roundtrip {x : Value} {s : String}
    (h : parseServiceTier x = some s) : Value.vstr s = x := by
  simp only [parseServiceTier, obind_eq_some] at h
  obtain ⟨t, ht, hif⟩ := h
  by_cases hc : t = "scale" ∨ t = "default"
  · rw [if_pos hc] at hif
    cases hif
    exact (asStr_inv ht).symm
  · rw [if_neg hc] at hif
    exact absurd hif (by simp)

theorem dumpUsage_eq (o : Option Unit) :
    dumpUsage o = dumpOpt (fun _ => Value.vobj []) o := by
  cases o <;> rfl

theorem choice_dump_norm {v : Value} {m : ChoiceM}
    (h : parseChoice v = some m) : dumpChoice m = normChoice v := by
  simp only [parseChoice, obind_eq_some] at h
  obtain ⟨kvs, hkvs, mv, hmv, msg, hmsg, fv, hfv, fr, hfr, iv, hiv, idx,
    hidx, lps, hlps, heq⟩ := h
  cases heq
  rw [asObj_inv hkvs, normChoice, dumpChoice]
  rw [optF_eq_of_alookup hmv, completionMessage_dump_norm hmsg]
  rw [optF_eq_of_alookup hfv, finishReason_roundtrip hfr]
  rw [optF_eq_of_alookup hiv, asInt_inv hidx]
  rw [parseOpt_dump_norm (fun x a ha => choiceLogprobs_dump_norm ha) hlps]

theorem chunkChoice_dump_norm {v : Value} {m : ChunkChoiceM}
    (h : parseChunkChoice v = some m) :
    dumpChunkChoice m = normChunkChoice v := by
  simp only [parseChunkChoice, obind_eq_some] at h
  obtain ⟨kvs, hkvs, dv, hdv, delta, hdelta, fv, hfv, fr, hfr, iv, hiv, idx,
    hidx, lps, hlps, heq⟩ := h
  cases heq
  rw [asObj_inv hkvs, normChunkChoice, dumpChunkChoice]
  rw [optF_eq_of_alookup hdv, completionMessage_dump_norm hdelta]
  rw [optF_eq_of_alookup hfv, finishReason_roundtrip hfr]
  rw [optF_eq_of_alookup hiv, asInt_inv hidx]
  rw [parseOpt_dump_norm (fun x a ha => choiceLogprobs_dump_norm ha) hlps]

theorem completion_dump_norm {v : Value} {m : CompletionM}
    (h : parseCompletion v = some m) :
    dumpCompletion m = normCompletion v := by
  simp only [parseCompletion, obind_eq_some] at h
  obtain ⟨kvs, hkvs, iv, hiv, id, hid, cv, hcv, cxs, hcxs, choices,
    hchoices, crv, hcrv, created, hcreated, mv, hmv, model, hmodel, ov, hov,
    object, hobject, st, hst, sf, hsf, usage, husage, heq⟩ := h
  cases heq
  rw [asObj_inv hkvs, normCompletion, dumpCompletion]
  rw [optF_eq_of_alookup hiv, asStr_inv hid]
  rw [optF_eq_of_alookup hcv, asList_inv hcxs, normList,
    omapM_dump_norm (fun x a ha => choice_dump_norm ha) hchoices]
  rw [optF_eq_of_alookup hcrv, asInt_inv hcreated]
  rw [optF_eq_of_alookup hmv, asStr_inv hmodel]
  rw [optF_eq_of_alookup hov, asStr_inv hobject]
  rw [show dumpOpt Value.vstr st =
        normOpt (fun x => x) (optF kvs "service_tier")
        from parseOpt_dump_norm (fun x a ha => serviceTier_roundtrip ha) hst,
      normOpt_id]
  rw [show dumpOpt Value.vstr sf =
        normOpt (fun x => x) (optF kvs "system_fingerprint")
        from parseOpt_dump_norm (fun x a ha => (asStr_inv ha).symm) hsf,
      normOpt_id]
  rw [dumpUsage_eq, parseOpt_dump_norm (fun x a ha => rfl) husage]

theorem completionChunk_dump_norm {v : Value} {m : CompletionChunkM}
    (h : parseCompletionChunk v = some m) :
    dumpCompletionChunk m = normCompletionChunk v := by
  simp only [parseCompletionChunk, obind_eq_some] at h
  obtain ⟨kvs, hkvs, iv, hiv, id, hid, cv, hcv, cxs, hcxs, choices,
    hchoices, crv, hcrv, created, hcreated, mv, hmv, model, hmodel, ov, hov,
    object, hobject, st, hst, sf, hsf, usage, husage, heq⟩ := h
  cases heq
  rw [asObj_inv hkvs, normCompletionChunk, dumpCompletionChunk]
  rw [optF_eq_of_alookup hiv, asStr_inv hid]
  rw [optF_eq_of_alookup hcv, asList_inv hcxs, normList,
    omapM_dump_norm (fun x a ha => chunkChoice_dump_norm ha) hchoices]
  rw [optF_eq_of_alookup hcrv, asInt_inv hcreated]
  rw [optF_eq_of_alookup hmv, asStr_inv hmodel]
  rw [optF_eq_of_alookup hov, asStr_inv hobject]
  rw [show dumpOpt Value.vstr st =
        normOpt (fun x => x) (optF kvs "service_tier")
        from parseOpt_dump_norm (fun x a ha => serviceTier_roundtrip ha) hst,
      normOpt_id]
  rw [show dumpOpt Value.vstr sf =
        normOpt (fun x => x) (optF kvs "system_fingerprint")
        from parseOpt_dump_norm (fun x a ha => (asStr_inv ha).symm) hsf,
      normOpt_id]
  rw [dumpUsage_eq, parseOpt_dump_norm (fun x a ha => rfl) husage]

theorem embedding_dump_norm {v : Value} {m : EmbeddingM}
    (h : parseEmbedding v = some m) : dumpEmbedding m = normEmbedding v := by
  simp only [parseEmbedding, obind_eq_some] at h
  obtain ⟨kvs, hkvs, ev, hev, xs, hxs, fs, hfs, iv, hiv, n, hn, ov, hov, os,
    hos, hif⟩ := h
  have hife : os = "embedding" ∧ m = ⟨fs, n⟩ := by
    by_cases hoe : os = "embedding"
    · rw [if_pos hoe] at hif
      cases hif
      exact ⟨hoe, rfl⟩
    · rw [if_neg hoe] at hif
      exact absurd hif (by simp)
  obtain ⟨hoe, hm⟩ := hife
  subst hm
  rw [asObj_inv hkvs, normEmbedding, dumpEmbedding]
  rw [optF_eq_of_alookup hev, asList_inv hxs,
    omapM_inv (fun x a ha => asFloat_inv ha) hfs]
  rw [optF_eq_of_alookup hiv, asInt_inv hn]
  rw [optF_eq_of_alookup hov, asStr_inv hos, hoe]

/-- Claim C3 counterexample: the valid Completion payload p0
deserializes to c0, but its serialization differs from p0 at the key
"choices", which is present in p0: the serialized choice object
contains the key "logprobs" (as null) while p0's choice object does
not contain that key at all, so no key reordering makes the two
values equal. Serialization emits every declared field of every
nested model, so round-tripping is not the identity on the keys
present in the payload. -/
theorem c3_roundtrip_cex :
    parseCompletion p0 = some c0 ∧
    objLookup (dumpCompletion c0) "choices" = some (.vlist [d0c]) ∧
    objLookup d0c "logprobs" = some .vnull ∧
    objLookup p0c "logprobs" = none :=
  ⟨rfl, rfl, rfl, rfl⟩

/-- Claim C3 amended: for every raw payload P that validates for
Completion, CompletionChunk or Embedding, serializing the instance
obtained by deserializing P yields exactly the normalization of P: an
object that agrees with P on every declared key present in P
(original values preserved, nested objects normalized the same way),
adds each declared-but-absent Optional field as null, drops
unrecognized keys, orders keys by field declaration, and collapses a
non-null usage object to the empty object (usage is typed as a bare
BaseModel, which keeps no fields). For a payload with no nesting, no
unrecognized keys and all declared fields supplied — e.g. any
Embedding payload with exactly its three declared keys — this gives
back P itself up to key ordering. -/
theorem c3_roundtrip_amended :
    (∀ (v : Value) (m : CompletionM), parseCompletion v = some m →
        dumpCompletion m = normCompletion v) ∧
    (∀ (v : Value) (m : CompletionChunkM), parseCompletionChunk v = some m →
        dumpCompletionChunk m = normCompletionChunk v) ∧
    (∀ (v : Value) (m : EmbeddingM), parseEmbedding v = some m →
        dumpEmbedding m = normEmbedding v) :=
  ⟨fun _ _ h => completion_dump_norm h,
   fun _ _ h => completionChunk_dump_norm h,
   fun _ _ h => embedding_dump_norm h⟩

/-- Claim C3 amended witness: serializing the instance deserialized
from p0 yields exactly the normalization of p0. -/
theorem c3_roundtrip_amended_w :
    dumpCompletion c0 = normCompletion p0 :=
  c3_roundtrip_amended.1 p0 c0 rfl

end Chatspec
